import Mathlib

/-!
Shallow embedding of the product recommendation engine
(`recommendation_engine.py`): data aggregation, weighted popularity
ranking, co-occurrence table construction with a randomized intra-tier
shuffle, and the top-5 selection with (product, brand) de-duplication.

The pandas dataframe is modelled as a `List Row`; `groupby(...).agg(sum)`
keeps group keys in first-occurrence order (the order of the aggregated
rows is irrelevant to every property proved here, except for the
popularity table whose order is fixed by the subsequent score sort).
The `random.shuffle` call is modelled by an oracle `sh` that is assumed
to permute its input; floats are modelled by exact rationals.
-/

/-- First-occurrence de-duplication with an accumulator of already seen
elements, modelling iteration order of python dict keys / groupby keys. -/
def uniqAux {α : Type} [DecidableEq α] : List α → List α → List α
  | [], _ => []
  | x :: xs, seen => if x ∈ seen then uniqAux xs seen else x :: uniqAux xs (x :: seen)

/-- Keep the first occurrence of each element, in order of first occurrence. -/
def uniq {α : Type} [DecidableEq α] (l : List α) : List α := uniqAux l []

theorem mem_uniqAux {α : Type} [DecidableEq α] (l : List α) :
    ∀ (seen : List α) (a : α), a ∈ uniqAux l seen ↔ a ∈ l ∧ a ∉ seen := by
  induction l with
  | nil => intro seen a; simp [uniqAux]
  | cons x xs ih =>
    intro seen a
    by_cases hx : x ∈ seen
    · rw [uniqAux, if_pos hx, ih]
      simp only [List.mem_cons]
      constructor
      · rintro ⟨h1, h2⟩
        exact ⟨Or.inr h1, h2⟩
      · rintro ⟨h1 | h1, h2⟩
        · exact absurd (h1.symm ▸ hx) h2
        · exact ⟨h1, h2⟩
    · rw [uniqAux, if_neg hx]
      simp only [List.mem_cons, ih, List.mem_cons]
      constructor
      · rintro (h | ⟨h1, h2⟩)
        · exact ⟨Or.inl h, h ▸ hx⟩
        · exact ⟨Or.inr h1, fun hs => h2 (Or.inr hs)⟩
      · rintro ⟨h1 | h1, h2⟩
        · exact Or.inl h1
        · by_cases hax : a = x
          · exact Or.inl hax
          · exact Or.inr ⟨h1, fun hs => hs.elim hax h2⟩

theorem mem_uniq {α : Type} [DecidableEq α] (l : List α) (a : α) :
    a ∈ uniq l ↔ a ∈ l := by
  rw [uniq, mem_uniqAux]; simp

theorem nodup_uniqAux {α : Type} [DecidableEq α] (l : List α) :
    ∀ (seen : List α), (uniqAux l seen).Nodup := by
  induction l with
  | nil => intro seen; simp [uniqAux]
  | cons x xs ih =>
    intro seen
    by_cases hx : x ∈ seen
    · rw [uniqAux, if_pos hx]; exact ih seen
    · rw [uniqAux, if_neg hx]
      refine List.Nodup.cons ?_ (ih (x :: seen))
      intro hmem
      rcases (mem_uniqAux xs (x :: seen) x).mp hmem with ⟨_, hnot⟩
      exact hnot (List.mem_cons_self x seen)

theorem nodup_uniq {α : Type} [DecidableEq α] (l : List α) : (uniq l).Nodup :=
  nodup_uniqAux l []

/-- Sum of 0/1 indicators equals the length of the corresponding filter. -/
theorem sum_map_ite {α : Type} (L : List α) (p : α → Prop) [DecidablePred p] :
    (L.map (fun x => if p x then (1 : Nat) else 0)).sum
      = (L.filter (fun x => decide (p x))).length := by
  induction L with
  | nil => rfl
  | cons x xs ih =>
    by_cases h : p x
    · simp [List.filter_cons, h, ih]
      omega
    · simp [List.filter_cons, h, ih]

theorem nodup_append_singleton {α : Type} {l : List α} {a : α}
    (hl : l.Nodup) (ha : a ∉ l) : (l ++ [a]).Nodup := by
  rw [List.nodup_append]
  exact ⟨hl, List.nodup_singleton a, fun x hx hxa => ha ((List.mem_singleton.mp hxa) ▸ hx)⟩

/-- One raw interaction row of the CSV: a (user, product, brand) triple with
click / add-to-cart / purchase counts.  Aggregated rows reuse this shape. -/
structure Row where
  uid : Int
  pid : Int
  brand : String
  click : Nat
  addToCart : Nat
  purchase : Nat
deriving DecidableEq

/-- One row of the product popularity table: a (product, brand) key with
summed counts and the derived popularity score. -/
structure PopRow where
  pid : Int
  brand : String
  click : Nat
  addToCart : Nat
  purchase : Nat
  score : ℚ
deriving DecidableEq

/-- The value returned by `get_recommendations`. -/
structure RecResult where
  uid : Int
  products : List Int
deriving DecidableEq

/-- Grouping key of `user_product_stats`. -/
def statKey (r : Row) : Int × Int × String := (r.uid, r.pid, r.brand)

/-- Grouping key of `product_popularity`. -/
def popKey (r : Row) : Int × String := (r.pid, r.brand)

/-- `df.groupby(['uid','pid','brand']).agg(sum)`: one aggregated row per
distinct (uid, pid, brand) key. -/
def userProductStats (df : List Row) : List Row :=
  (uniq (df.map statKey)).map (fun k =>
    { uid := k.1, pid := k.2.1, brand := k.2.2,
      click := ((df.filter (fun r => decide (statKey r = k))).map Row.click).sum,
      addToCart := ((df.filter (fun r => decide (statKey r = k))).map Row.addToCart).sum,
      purchase := ((df.filter (fun r => decide (statKey r = k))).map Row.purchase).sum })

/-- `df.groupby(['pid','brand']).agg(sum)`, before scoring and sorting. -/
def popBase (df : List Row) : List PopRow :=
  (uniq (df.map popKey)).map (fun k =>
    { pid := k.1, brand := k.2,
      click := ((df.filter (fun r => decide (popKey r = k))).map Row.click).sum,
      addToCart := ((df.filter (fun r => decide (popKey r = k))).map Row.addToCart).sum,
      purchase := ((df.filter (fun r => decide (popKey r = k))).map Row.purchase).sum,
      score := 0 })

/-- `self.product_popularity['purchase'].sum()`. -/
def totPurchase (df : List Row) : Nat := ((popBase df).map PopRow.purchase).sum

/-- `self.product_popularity['click'].sum()`. -/
def totClick (df : List Row) : Nat := ((popBase df).map PopRow.click).sum

/-- `self.product_popularity['add_to_cart'].sum()`. -/
def totCart (df : List Row) : Nat := ((popBase df).map PopRow.addToCart).sum

/-- `coef_click = purchase_total / max(click_total, 1)`. -/
def coefClick (df : List Row) : ℚ := (totPurchase df : ℚ) / ((max (totClick df) 1 : Nat) : ℚ)

/-- `coef_cart = purchase_total / max(add_to_cart_total, 1)`. -/
def coefCart (df : List Row) : ℚ := (totPurchase df : ℚ) / ((max (totCart df) 1 : Nat) : ℚ)

/-- `popularity_score = click * coef_click + add_to_cart * coef_cart + purchase * 1`. -/
def scoreOf (df : List Row) (click addToCart purchase : Nat) : ℚ :=
  (click : ℚ) * coefClick df + (addToCart : ℚ) * coefCart df + (purchase : ℚ)

/-- Descending-score comparison used to sort the popularity table. -/
def popGE (a b : PopRow) : Prop := b.score ≤ a.score

instance : DecidableRel popGE := fun a b => inferInstanceAs (Decidable (b.score ≤ a.score))

instance : IsTotal PopRow popGE := ⟨fun a b => le_total b.score a.score⟩

instance : IsTrans PopRow popGE := ⟨fun _ _ _ h1 h2 => le_trans h2 h1⟩

/-- `product_popularity` after scoring and `sort_values(ascending=False)`. -/
def productPopularity (df : List Row) : List PopRow :=
  List.insertionSort popGE
    ((popBase df).map (fun r => { r with score := scoreOf df r.click r.addToCart r.purchase }))

/-- `self.df[['pid','brand']].drop_duplicates('pid')` turned into a pid-to-brand
association list: the first occurrence of each pid in the raw data wins. -/
def brandsAux : List Row → List Int → List (Int × String)
  | [], _ => []
  | r :: rs, seen =>
    if r.pid ∈ seen then brandsAux rs seen
    else (r.pid, r.brand) :: brandsAux rs (r.pid :: seen)

/-- The `product_brands` dictionary. -/
def productBrands (df : List Row) : List (Int × String) := brandsAux df []

/-- `self.product_brands.get(pid, 'unknown')`. -/
def brandOf (df : List Row) (p : Int) : String :=
  (List.lookup p (productBrands df)).getD "unknown"

/-- The engaged aggregated rows: `purchase > 0 or add_to_cart > 0`. -/
def engaged (df : List Row) : List Row :=
  (userProductStats df).filter (fun s => decide (0 < s.purchase ∨ 0 < s.addToCart))

/-- The user ids appearing among engaged rows (dict keys of `user_purchases`). -/
def users (df : List Row) : List Int := uniq ((engaged df).map Row.uid)

/-- The engaged-product list of one user (one entry per engaged stats row). -/
def userPids (df : List Row) (u : Int) : List Int :=
  ((engaged df).filter (fun s => decide (s.uid = u))).map Row.pid

/-- All ordered position pairs (i < j) of a list, as element pairs. -/
def ordPairs : List Int → List (Int × Int)
  | [] => []
  | x :: xs => (xs.map (fun y => (x, y))) ++ ordPairs xs

/-- How many increments the loop body `counts[p1][p2] += 1; counts[p2][p1] += 1`
performed on the counter cell (a, b) for one position pair. -/
def keyInc (p : Int × Int) (a b : Int) : Nat :=
  (if p.1 = a ∧ p.2 = b then 1 else 0) + (if p.1 = b ∧ p.2 = a then 1 else 0)

/-- The final value of `cooccur_counts[a][b]`. -/
def coCount (df : List Row) (a b : Int) : Nat :=
  ((users df).map (fun u => ((ordPairs (userPids df u)).map (fun p => keyInc p a b)).sum)).sum

/-- The pids occurring in any user's engaged list. -/
def allPids (df : List Row) : List Int := uniq ((engaged df).map Row.pid)

/-- The keys of `cooccur_counts[p]`: products with a positive association count. -/
def assocPids (df : List Row) (p : Int) : List Int :=
  (allPids df).filter (fun q => decide (0 < coCount df p q))

/-- One frequency tier of product p: associated products with count f. -/
def tierMembers (df : List Row) (p : Int) (f : Nat) : List Int :=
  (assocPids df p).filter (fun q => decide (coCount df p q = f))

/-- Descending order on association counts. -/
def natGE (a b : Nat) : Prop := b ≤ a

instance : DecidableRel natGE := fun a b => inferInstanceAs (Decidable (b ≤ a))

instance : IsTotal Nat natGE := ⟨fun a b => le_total b a⟩

instance : IsTrans Nat natGE := ⟨fun _ _ _ h1 h2 => le_trans h2 h1⟩

/-- The distinct association counts of product p, highest first. -/
def assocFreqs (df : List Row) (p : Int) : List Nat :=
  List.insertionSort natGE (uniq ((assocPids df p).map (fun q => coCount df p q)))

/-- The type of the oracle standing for `random.shuffle`: it may depend on the
seed product and the tier frequency, and rearranges the tier member list. -/
def Shuffle : Type := Int → Nat → List Int → List Int

/-- A shuffle oracle faithfully models `random.shuffle` when it permutes. -/
def ValidShuffle (sh : Shuffle) : Prop := ∀ p f l, List.Perm (sh p f l) l

/-- The trivial shuffle (used to instantiate concrete scenarios). -/
def idShuffle : Shuffle := fun _ _ l => l

theorem idShuffle_valid : ValidShuffle idShuffle := fun _ _ l => List.Perm.refl l

/-- `self.cooccurrence[p]`: the frequency tiers, highest count first, each tier
shuffled once at build time. -/
def cooccurList (df : List Row) (sh : Shuffle) (p : Int) : List Int :=
  (assocFreqs df p).flatMap (fun f => sh p f (tierMembers df p f))

/-- The `interested_products` set of a user: any positive count. -/
def interested (df : List Row) (uid : Int) : List Int :=
  uniq (((userProductStats df).filter
    (fun s => decide (s.uid = uid ∧ (0 < s.addToCart ∨ 0 < s.click ∨ 0 < s.purchase)))).map Row.pid)

/-- The final value of `candidate_counts[c]`: one increment per occurrence of c
in the co-occurrence list of one of the user's interested products. -/
def voteCount (df : List Row) (sh : Shuffle) (uid c : Int) : Nat :=
  if c ∈ interested df uid then 0
  else ((interested df uid).map (fun s => (cooccurList df sh s).count c)).sum

/-- The keys of `candidate_counts`, in first-increment order. -/
def candidatePids (df : List Row) (sh : Shuffle) (uid : Int) : List Int :=
  (uniq ((interested df uid).flatMap (cooccurList df sh))).filter
    (fun c => decide (c ∉ interested df uid))

/-- Descending order on vote counts. -/
def pairGE (a b : Int × Nat) : Prop := b.2 ≤ a.2

instance : DecidableRel pairGE := fun a b => inferInstanceAs (Decidable (b.2 ≤ a.2))

instance : IsTotal (Int × Nat) pairGE := ⟨fun a b => le_total b.2 a.2⟩

instance : IsTrans (Int × Nat) pairGE := ⟨fun _ _ _ h1 h2 => le_trans h2 h1⟩

/-- `ranked_candidates = sorted(candidate_counts.items(), key=count, reverse=True)`. -/
def rankedCandidates (df : List Row) (sh : Shuffle) (uid : Int) : List (Int × Nat) :=
  List.insertionSort pairGE
    ((candidatePids df sh uid).map (fun c => (c, voteCount df sh uid c)))

/-- The first selection loop: append ranked co-occurrence candidates, skipping
already seen (pid, brand) pairs, stopping after the fifth append. -/
def pickLoop (df : List Row) : List (Int × Nat) → List Int → List (Int × String) → List Int
  | [], recs, _ => recs
  | (p, _) :: rest, recs, seen =>
    if (p, brandOf df p) ∈ seen then pickLoop df rest recs seen
    else if 5 ≤ (recs ++ [p]).length then recs ++ [p]
    else pickLoop df rest (recs ++ [p]) ((p, brandOf df p) :: seen)

/-- The loop of `fill_with_popular_products`: append popularity rows, skipping
interested pids and already seen (pid, brand) pairs, stopping after the
append that reaches `max_count`. -/
def fillLoop (I : List Int) (maxCount : Nat) :
    List PopRow → List Int → List (Int × String) → List Int
  | [], recs, _ => recs
  | row :: rest, recs, seen =>
    if row.pid ∈ I then fillLoop I maxCount rest recs seen
    else if (row.pid, row.brand) ∈ seen then fillLoop I maxCount rest recs seen
    else if maxCount ≤ (recs ++ [row.pid]).length then recs ++ [row.pid]
    else fillLoop I maxCount rest (recs ++ [row.pid]) ((row.pid, row.brand) :: seen)

/-- `fill_with_popular_products(recommendations, interested_products=I)` with
the default `max_count=5`; the initial seen set is rebuilt from the incoming
recommendations through the brand dictionary, exactly as in the code. -/
def fillWithPopular (df : List Row) (recs : List Int) (I : List Int) : List Int :=
  fillLoop I 5 (productPopularity df) recs (recs.map (fun p => (p, brandOf df p)))

/-- `get_recommendations_for_existing_user`. -/
def existingUserRecs (df : List Row) (sh : Shuffle) (uid : Int) : List Int :=
  if ((userProductStats df).filter (fun s => decide (s.uid = uid))) = [] then []
  else
    let picks := pickLoop df (rankedCandidates df sh uid) [] []
    if picks.length < 5 then fillWithPopular df picks (interested df uid) else picks

/-- `uid in self.user_product_stats['uid'].values`. -/
def userExists (df : List Row) (uid : Int) : Bool :=
  (userProductStats df).any (fun s => decide (s.uid = uid))

/-- `get_recommendations`: route to the existing-user path or the popularity
fallback, then truncate to the first 5 entries. -/
def getRecommendations (df : List Row) (sh : Shuffle) (uid : Int) : RecResult :=
  { uid := uid,
    products :=
      (if userExists df uid then existingUserRecs df sh uid
       else fillWithPopular df [] []).take 5 }

/-- Modelled from the spec: the co-occurrence counting discipline as the spec
words it, for comparison with the code's `coCount`.  It is missing from the
code as a separate artifact; the spec says the counter is incremented once
per unordered pair of distinct products in a user's engaged set,
symmetrically for both orderings, so the (a, b) cell ends up holding the
number of users engaged with both a and b, and the diagonal holds zero. -/
def coCountSpec (df : List Row) (a b : Int) : Nat :=
  if a = b then 0
  else ((users df).filter (fun u => decide (a ∈ userPids df u ∧ b ∈ userPids df u))).length

theorem lookup_brandsAux (df : List Row) :
    ∀ (seen : List Int) (p : Int), p ∉ seen →
      List.lookup p (brandsAux df seen)
        = (df.find? (fun r => decide (r.pid = p))).map Row.brand := by
  induction df with
  | nil => intro seen p _; rfl
  | cons r rs ih =>
    intro seen p hp
    by_cases hr : r.pid ∈ seen
    · have hne : ¬(r.pid = p) := fun h => hp (h ▸ hr)
      rw [brandsAux, if_pos hr, List.find?_cons_of_neg _ (by simpa using hne), ih seen p hp]
    · rw [brandsAux, if_neg hr]
      by_cases hpr : p = r.pid
      · subst hpr
        rw [List.find?_cons_of_pos _ (by simp)]
        simp [List.lookup]
      · have : List.lookup p ((r.pid, r.brand) :: brandsAux rs (r.pid :: seen))
            = List.lookup p (brandsAux rs (r.pid :: seen)) := by
          have hbeq : (p == r.pid) = false := beq_eq_false_iff_ne.mpr hpr
          simp [List.lookup, hbeq]
        rw [this, List.find?_cons_of_neg _ (by simpa using fun h => hpr h.symm)]
        exact ih (r.pid :: seen) p (by simp [hpr, hp])

theorem mem_productPopularity_iff (df : List Row) (row : PopRow) :
    row ∈ productPopularity df ↔
      ∃ b ∈ popBase df, row = { b with score := scoreOf df b.click b.addToCart b.purchase } := by
  unfold productPopularity
  rw [(List.perm_insertionSort popGE _).mem_iff, List.mem_map]
  constructor
  · rintro ⟨b, hb, rfl⟩; exact ⟨b, hb, rfl⟩
  · rintro ⟨b, hb, rfl⟩; exact ⟨b, hb, rfl⟩

theorem popBase_mem_key (df : List Row) (b : PopRow) (hb : b ∈ popBase df) :
    ∃ r ∈ df, r.pid = b.pid ∧ r.brand = b.brand := by
  unfold popBase at hb
  rw [List.mem_map] at hb
  obtain ⟨k, hk, hbuild⟩ := hb
  rw [mem_uniq, List.mem_map] at hk
  obtain ⟨r, hr, hkey⟩ := hk
  refine ⟨r, hr, ?_, ?_⟩
  · rw [← hbuild]; rw [popKey] at hkey; exact congrArg Prod.fst hkey
  · rw [← hbuild]; rw [popKey] at hkey; exact congrArg Prod.snd hkey

theorem productPopularity_keys_perm (df : List Row) :
    ((productPopularity df).map (fun r => (r.pid, r.brand))).Perm (uniq (df.map popKey)) := by
  have h1 := (List.perm_insertionSort popGE
    ((popBase df).map (fun r => { r with score := scoreOf df r.click r.addToCart r.purchase }))).map
    (fun r : PopRow => (r.pid, r.brand))
  unfold productPopularity
  refine h1.trans ?_
  rw [List.map_map]
  unfold popBase
  rw [List.map_map]
  have : ((fun r : PopRow => (r.pid, r.brand)) ∘ fun r : PopRow =>
      { r with score := scoreOf df r.click r.addToCart r.purchase }) = fun r : PopRow => (r.pid, r.brand) := rfl
  rw [this]
  have h2 : ∀ k ∈ uniq (df.map popKey),
      ((fun r : PopRow => (r.pid, r.brand)) ∘ fun k : Int × String =>
        ({ pid := k.1, brand := k.2,
           click := ((df.filter (fun r => decide (popKey r = k))).map Row.click).sum,
           addToCart := ((df.filter (fun r => decide (popKey r = k))).map Row.addToCart).sum,
           purchase := ((df.filter (fun r => decide (popKey r = k))).map Row.purchase).sum,
           score := 0 } : PopRow)) k = id k := fun k _ => rfl
  rw [List.map_congr_left h2, List.map_id]

theorem productPopularity_keys_nodup (df : List Row) :
    ((productPopularity df).map (fun r => (r.pid, r.brand))).Nodup :=
  (productPopularity_keys_perm df).symm.nodup (nodup_uniq _)

theorem popRow_brand_eq_brandOf (df : List Row)
    (hb : ∀ r ∈ df, ∀ s ∈ df, r.pid = s.pid → r.brand = s.brand)
    (row : PopRow) (hrow : row ∈ productPopularity df) : row.brand = brandOf df row.pid := by
  obtain ⟨b, hbase, rfl⟩ := (mem_productPopularity_iff df row).mp hrow
  obtain ⟨r, hr, hpid, hbrand⟩ := popBase_mem_key df b hbase
  show b.brand = brandOf df b.pid
  unfold brandOf productBrands
  rw [lookup_brandsAux df [] b.pid (by simp)]
  cases hf : df.find? (fun r => decide (r.pid = b.pid)) with
  | none =>
    rw [List.find?_eq_none] at hf
    exact absurd (by simpa using hpid) (hf r hr)
  | some r0 =>
    have hmem : r0 ∈ df := List.mem_of_find?_eq_some hf
    have hpid0 : r0.pid = b.pid := by simpa using List.find?_some hf
    have : r0.brand = r.brand := hb r0 hmem r hr (by rw [hpid0, hpid])
    simp [this, hbrand]

theorem fillLoop_mem_super (I : List Int) (mC : Nat) :
    ∀ (rows : List PopRow) (recs : List Int) (seen : List (Int × String)) (a : Int),
      a ∈ recs → a ∈ fillLoop I mC rows recs seen := by
  intro rows
  induction rows with
  | nil => intro recs seen a ha; simpa [fillLoop] using ha
  | cons row rest ih =>
    intro recs seen a ha
    rw [fillLoop]
    split_ifs with h1 h2 h3
    · exact ih _ _ _ ha
    · exact ih _ _ _ ha
    · exact List.mem_append_left _ ha
    · exact ih _ _ _ (List.mem_append_left _ ha)

theorem fillLoop_mem (I : List Int) (mC : Nat) :
    ∀ (rows : List PopRow) (recs : List Int) (seen : List (Int × String)) (a : Int),
      a ∈ fillLoop I mC rows recs seen →
        a ∈ recs ∨ ∃ row ∈ rows, a = row.pid ∧ row.pid ∉ I := by
  intro rows
  induction rows with
  | nil => intro recs seen a ha; exact Or.inl (by simpa [fillLoop] using ha)
  | cons row rest ih =>
    intro recs seen a ha
    rw [fillLoop] at ha
    split_ifs at ha with h1 h2 h3
    · rcases ih _ _ _ ha with h | ⟨r, hr, he⟩
      · exact Or.inl h
      · exact Or.inr ⟨r, List.mem_cons_of_mem _ hr, he⟩
    · rcases ih _ _ _ ha with h | ⟨r, hr, he⟩
      · exact Or.inl h
      · exact Or.inr ⟨r, List.mem_cons_of_mem _ hr, he⟩
    · rcases List.mem_append.mp ha with h | h
      · exact Or.inl h
      · exact Or.inr ⟨row, List.mem_cons_self _ _, List.mem_singleton.mp h, h1⟩
    · rcases ih _ _ _ ha with h | ⟨r, hr, he⟩
      · rcases List.mem_append.mp h with h | h
        · exact Or.inl h
        · exact Or.inr ⟨row, List.mem_cons_self _ _, List.mem_singleton.mp h, h1⟩
      · exact Or.inr ⟨r, List.mem_cons_of_mem _ hr, he⟩

theorem fillLoop_take :
    ∀ (rows : List PopRow) (recs : List Int) (seen : List (Int × String)),
      (rows.map (fun r => (r.pid, r.brand))).Nodup →
      (∀ r ∈ rows, (r.pid, r.brand) ∉ seen) →
      recs.length < 5 →
      fillLoop [] 5 rows recs seen = (recs ++ rows.map PopRow.pid).take 5 := by
  intro rows
  induction rows with
  | nil =>
    intro recs seen _ _ hlen
    simp [fillLoop, List.take_of_length_le (le_of_lt hlen)]
  | cons row rest ih =>
    intro recs seen hkeys hseen hlen
    rw [fillLoop]
    have h1 : row.pid ∉ ([] : List Int) := by simp
    rw [if_neg h1, if_neg (hseen row (List.mem_cons_self _ _))]
    by_cases h3 : 5 ≤ (recs ++ [row.pid]).length
    · rw [if_pos h3]
      have hlen4 : recs.length = 4 := by
        simp only [List.length_append, List.length_singleton] at h3
        omega
      rw [List.map_cons, List.take_append_eq_append_take,
        List.take_of_length_le (by omega : recs.length ≤ 5), hlen4]
      norm_num
    · rw [if_neg h3]
      rw [List.map_cons] at hkeys
      obtain ⟨hhead, hkeys'⟩ := List.nodup_cons.mp hkeys
      rw [ih (recs ++ [row.pid]) ((row.pid, row.brand) :: seen) hkeys' ?_ ?_]
      · rw [List.map_cons, List.append_assoc]
        rfl
      · intro r hr
        simp only [List.mem_cons, not_or]
        constructor
        · intro he
          exact hhead (by rw [← he]; exact List.mem_map_of_mem _ hr)
        · exact hseen r (List.mem_cons_of_mem _ hr)
      · simp only [List.length_append, List.length_singleton] at h3 ⊢
        omega

theorem fillLoop_coverage (I : List Int) (mC : Nat) :
    ∀ (rows : List PopRow) (recs : List Int) (seen : List (Int × String)),
      (∀ k ∈ seen, (k : Int × String).1 ∈ recs) →
      (fillLoop I mC rows recs seen).length < mC →
      ∀ row ∈ rows, row.pid ∉ I → row.pid ∈ fillLoop I mC rows recs seen := by
  intro rows
  induction rows with
  | nil => intro recs seen _ _ row hrow; exact absurd hrow (List.not_mem_nil _)
  | cons row rest ih =>
    intro recs seen hseen hlt r hr hrI
    rw [fillLoop] at hlt ⊢
    split_ifs at hlt ⊢ with h1 h2 h3
    · rcases List.mem_cons.mp hr with rfl | hr'
      · exact absurd h1 hrI
      · exact ih _ _ hseen hlt r hr' hrI
    · rcases List.mem_cons.mp hr with rfl | hr'
      · exact fillLoop_mem_super I mC rest recs seen r.pid (hseen _ h2)
      · exact ih _ _ hseen hlt r hr' hrI
    · exact absurd hlt (by simp only [not_lt]; exact h3)
    · rcases List.mem_cons.mp hr with rfl | hr'
      · exact fillLoop_mem_super I mC rest _ _ r.pid (List.mem_append_right _ (by simp))
      · refine ih _ _ ?_ hlt r hr' hrI
        intro k hk
        rcases List.mem_cons.mp hk with rfl | hk'
        · exact List.mem_append_right _ (by simp)
        · exact List.mem_append_left _ (hseen k hk')

theorem fillLoop_nodup (df : List Row) (I : List Int) (mC : Nat) :
    ∀ (rows : List PopRow) (recs : List Int) (seen : List (Int × String)),
      (∀ r ∈ rows, (r : PopRow).brand = brandOf df r.pid) →
      recs.Nodup →
      (∀ q ∈ recs, (q, brandOf df q) ∈ seen) →
      (fillLoop I mC rows recs seen).Nodup := by
  intro rows
  induction rows with
  | nil => intro recs seen _ hnd _; simpa [fillLoop] using hnd
  | cons row rest ih =>
    intro recs seen hrows hnd hinv
    rw [fillLoop]
    have hbrand : row.brand = brandOf df row.pid := hrows row (List.mem_cons_self _ _)
    split_ifs with h1 h2 h3
    · exact ih _ _ (fun r hr => hrows r (List.mem_cons_of_mem _ hr)) hnd hinv
    · exact ih _ _ (fun r hr => hrows r (List.mem_cons_of_mem _ hr)) hnd hinv
    · refine nodup_append_singleton hnd ?_
      intro hmem
      exact h2 (hbrand ▸ hinv row.pid hmem)
    · refine ih _ _ (fun r hr => hrows r (List.mem_cons_of_mem _ hr)) ?_ ?_
      · refine nodup_append_singleton hnd ?_
        intro hmem
        exact h2 (hbrand ▸ hinv row.pid hmem)
      · intro q hq
        rcases List.mem_append.mp hq with h | h
        · exact List.mem_cons_of_mem _ (hinv q h)
        · rw [List.mem_singleton.mp h, ← hbrand]
          exact List.mem_cons_self _ _

theorem pickLoop_mem (df : List Row) :
    ∀ (ranked : List (Int × Nat)) (recs : List Int) (seen : List (Int × String)) (a : Int),
      a ∈ pickLoop df ranked recs seen → a ∈ recs ∨ ∃ n, (a, n) ∈ ranked := by
  intro ranked
  induction ranked with
  | nil => intro recs seen a ha; exact Or.inl (by simpa [pickLoop] using ha)
  | cons pr rest ih =>
    intro recs seen a ha
    obtain ⟨p, n⟩ := pr
    rw [pickLoop] at ha
    split_ifs at ha with h1 h2
    · rcases ih _ _ _ ha with h | ⟨m, hm⟩
      · exact Or.inl h
      · exact Or.inr ⟨m, List.mem_cons_of_mem _ hm⟩
    · rcases List.mem_append.mp ha with h | h
      · exact Or.inl h
      · exact Or.inr ⟨n, (List.mem_singleton.mp h) ▸ List.mem_cons_self _ _⟩
    · rcases ih _ _ _ ha with h | ⟨m, hm⟩
      · rcases List.mem_append.mp h with h | h
        · exact Or.inl h
        · exact Or.inr ⟨n, (List.mem_singleton.mp h) ▸ List.mem_cons_self _ _⟩
      · exact Or.inr ⟨m, List.mem_cons_of_mem _ hm⟩

theorem pickLoop_nodup (df : List Row) :
    ∀ (ranked : List (Int × Nat)) (recs : List Int) (seen : List (Int × String)),
      recs.Nodup →
      (∀ q ∈ recs, (q, brandOf df q) ∈ seen) →
      (pickLoop df ranked recs seen).Nodup := by
  intro ranked
  induction ranked with
  | nil => intro recs seen hnd _; simpa [pickLoop] using hnd
  | cons pr rest ih =>
    intro recs seen hnd hinv
    obtain ⟨p, n⟩ := pr
    rw [pickLoop]
    split_ifs with h1 h2
    · exact ih _ _ hnd hinv
    · refine nodup_append_singleton hnd ?_
      intro hmem
      exact h1 (hinv p hmem)
    · refine ih _ _ ?_ ?_
      · refine nodup_append_singleton hnd ?_
        intro hmem
        exact h1 (hinv p hmem)
      · intro q hq
        rcases List.mem_append.mp hq with h | h
        · exact List.mem_cons_of_mem _ (hinv q h)
        · rw [List.mem_singleton.mp h]
          exact List.mem_cons_self _ _

theorem mem_tierMembers (df : List Row) (p : Int) (f : Nat) (q : Int) :
    q ∈ tierMembers df p f ↔ q ∈ allPids df ∧ 0 < coCount df p q ∧ coCount df p q = f := by
  unfold tierMembers assocPids
  simp only [List.mem_filter, decide_eq_true_eq, and_assoc]

theorem tierMembers_nodup (df : List Row) (p : Int) (f : Nat) :
    (tierMembers df p f).Nodup :=
  (List.Nodup.filter _ (List.Nodup.filter _ (nodup_uniq _)))

theorem mem_shTier (df : List Row) (sh : Shuffle) (hsh : ValidShuffle sh)
    (p : Int) (f : Nat) (q : Int) :
    q ∈ sh p f (tierMembers df p f) ↔ q ∈ tierMembers df p f :=
  (hsh p f _).mem_iff

theorem shTier_count (df : List Row) (sh : Shuffle) (hsh : ValidShuffle sh)
    (p : Int) (f : Nat) (q : Int) (hq : q ∈ sh p f (tierMembers df p f)) :
    coCount df p q = f :=
  ((mem_tierMembers df p f q).mp ((mem_shTier df sh hsh p f q).mp hq)).2.2

theorem assocFreqs_nodup (df : List Row) (p : Int) : (assocFreqs df p).Nodup := by
  unfold assocFreqs
  exact (List.perm_insertionSort natGE
    (uniq ((assocPids df p).map (fun q => coCount df p q)))).symm.nodup (nodup_uniq _)

theorem assocFreqs_sorted (df : List Row) (p : Int) :
    List.Sorted natGE (assocFreqs df p) :=
  List.sorted_insertionSort natGE _

theorem cooccurList_nodup (df : List Row) (sh : Shuffle) (hsh : ValidShuffle sh) (p : Int) :
    (cooccurList df sh p).Nodup := by
  unfold cooccurList
  rw [List.nodup_flatMap]
  constructor
  · intro f _
    exact (hsh p f _).symm.nodup (tierMembers_nodup df p f)
  · refine (assocFreqs_nodup df p).imp ?_
    intro f g hfg
    intro q hqf hqg
    exact hfg ((shTier_count df sh hsh p f q hqf) ▸ (shTier_count df sh hsh p g q hqg))

theorem flatMap_perm_of_perm {α β : Type} (l : List α) (f g : α → List β)
    (h : ∀ a ∈ l, (f a).Perm (g a)) : (l.flatMap f).Perm (l.flatMap g) := by
  induction l with
  | nil => simp
  | cons x xs ih =>
    simp only [List.flatMap_cons]
    exact (h x (List.mem_cons_self _ _)).append (ih (fun a ha => h a (List.mem_cons_of_mem _ ha)))

theorem cooccurList_perm (df : List Row) (sh1 sh2 : Shuffle)
    (h1 : ValidShuffle sh1) (h2 : ValidShuffle sh2) (p : Int) :
    (cooccurList df sh1 p).Perm (cooccurList df sh2 p) := by
  unfold cooccurList
  exact flatMap_perm_of_perm _ _ _ (fun f _ => (h1 p f _).trans (h2 p f _).symm)

theorem pairwise_flatMap_tiers (df : List Row) (sh : Shuffle) (hsh : ValidShuffle sh) (p : Int) :
    ∀ (fs : List Nat), List.Sorted natGE fs →
      List.Pairwise (fun a b => coCount df p b ≤ coCount df p a)
        (fs.flatMap (fun f => sh p f (tierMembers df p f))) := by
  intro fs
  induction fs with
  | nil => intro _; simp
  | cons f fs ih =>
    intro hs
    rw [List.sorted_cons] at hs
    obtain ⟨hf, hfs⟩ := hs
    simp only [List.flatMap_cons]
    rw [List.pairwise_append]
    refine ⟨?_, ih hfs, ?_⟩
    · refine List.pairwise_of_forall_mem_list ?_
      intro a ha b hb
      rw [shTier_count df sh hsh p f a ha, shTier_count df sh hsh p f b hb]
    · intro a ha b hb
      rw [List.mem_flatMap] at hb
      obtain ⟨g, hg, hbg⟩ := hb
      rw [shTier_count df sh hsh p f a ha, shTier_count df sh hsh p g b hbg]
      exact hf g hg

theorem cooccurList_pairwise (df : List Row) (sh : Shuffle) (hsh : ValidShuffle sh) (p : Int) :
    List.Pairwise (fun a b => coCount df p b ≤ coCount df p a) (cooccurList df sh p) :=
  pairwise_flatMap_tiers df sh hsh p (assocFreqs df p) (assocFreqs_sorted df p)

theorem interested_eq_nil_of_not_exists (df : List Row) (uid : Int)
    (h : userExists df uid = false) : interested df uid = [] := by
  unfold userExists at h
  rw [List.any_eq_false] at h
  unfold interested
  have : (userProductStats df).filter
      (fun s => decide (s.uid = uid ∧ (0 < s.addToCart ∨ 0 < s.click ∨ 0 < s.purchase))) = [] := by
    rw [List.filter_eq_nil_iff]
    intro s hs
    have := h s hs
    simp only [decide_eq_true_eq] at this ⊢
    exact fun hc => this hc.1
  rw [this]
  rfl

theorem interested_eq_nil_of_zero (df : List Row) (uid : Int)
    (h : ∀ s ∈ userProductStats df, s.uid = uid →
      s.click = 0 ∧ s.addToCart = 0 ∧ s.purchase = 0) : interested df uid = [] := by
  unfold interested
  have : (userProductStats df).filter
      (fun s => decide (s.uid = uid ∧ (0 < s.addToCart ∨ 0 < s.click ∨ 0 < s.purchase))) = [] := by
    rw [List.filter_eq_nil_iff]
    intro s hs
    simp only [decide_eq_true_eq]
    rintro ⟨huid, hpos⟩
    obtain ⟨h1, h2, h3⟩ := h s hs huid
    omega
  rw [this]
  rfl

theorem userRows_ne_nil (df : List Row) (uid : Int) (h : userExists df uid = true) :
    ((userProductStats df).filter (fun s => decide (s.uid = uid))) ≠ [] := by
  unfold userExists at h
  rw [List.any_eq_true] at h
  obtain ⟨s, hs, hd⟩ := h
  intro hnil
  rw [List.filter_eq_nil_iff] at hnil
  exact hnil s hs hd

theorem voteCount_eq (df : List Row) (sh : Shuffle) (uid c : Int)
    (hsh : ValidShuffle sh) (hc : c ∉ interested df uid) :
    voteCount df sh uid c
      = ((interested df uid).filter (fun s => decide (c ∈ cooccurList df sh s))).length := by
  unfold voteCount
  rw [if_neg hc]
  have hcong : ∀ s ∈ interested df uid,
      (cooccurList df sh s).count c
        = if c ∈ cooccurList df sh s then (1 : Nat) else 0 := by
    intro s _
    by_cases hmem : c ∈ cooccurList df sh s
    · rw [if_pos hmem]
      exact List.count_eq_one_of_mem (cooccurList_nodup df sh hsh s) hmem
    · rw [if_neg hmem]
      exact List.count_eq_zero_of_not_mem hmem
  rw [List.map_congr_left hcong]
  exact sum_map_ite _ _

theorem sum_map_add {α : Type} (l : List α) (f g : α → Nat) :
    (l.map (fun y => f y + g y)).sum = (l.map f).sum + (l.map g).sum := by
  induction l with
  | nil => rfl
  | cons x xs ih =>
    simp only [List.map_cons, List.sum_cons, ih]
    omega

theorem sum_indicator_mem {l : List Int} (hl : l.Nodup) (b : Int) :
    (l.map (fun y => if y = b then (1 : Nat) else 0)).sum = if b ∈ l then 1 else 0 := by
  induction l with
  | nil => simp
  | cons x xs ih =>
    rw [List.nodup_cons] at hl
    obtain ⟨hx, hxs⟩ := hl
    by_cases hxb : x = b
    · subst hxb
      rw [List.map_cons, List.sum_cons, if_pos rfl, ih hxs, if_neg hx,
        if_pos (List.mem_cons_self _ _)]
    · rw [List.map_cons, List.sum_cons, if_neg hxb, ih hxs]
      by_cases hb : b ∈ xs
      · rw [if_pos hb, if_pos (List.mem_cons_of_mem _ hb)]
      · rw [if_neg hb,
          if_neg (fun h => (List.mem_cons.mp h).elim (fun he => hxb he.symm) hb)]

theorem sum_head_left (x a b : Int) (xs : List Int) (hxs : xs.Nodup) :
    (xs.map (fun y => if x = a ∧ y = b then (1 : Nat) else 0)).sum
      = if x = a ∧ b ∈ xs then 1 else 0 := by
  by_cases hxa : x = a
  · simp only [hxa, true_and]
    exact sum_indicator_mem hxs b
  · simp [hxa]

theorem ordPairs_sum_keyInc (a b : Int) :
    ∀ (l : List Int), l.Nodup →
      ((ordPairs l).map (fun p => keyInc p a b)).sum
        = if a ≠ b ∧ a ∈ l ∧ b ∈ l then 1 else 0 := by
  intro l
  induction l with
  | nil => intro _; simp [ordPairs]
  | cons x xs ih =>
    intro hnd
    rw [List.nodup_cons] at hnd
    obtain ⟨hx, hxs⟩ := hnd
    rw [ordPairs, List.map_append, List.sum_append, ih hxs, List.map_map]
    have hkey : ((fun p => keyInc p a b) ∘ fun y => (x, y))
        = fun y => (if x = a ∧ y = b then (1 : Nat) else 0)
          + (if x = b ∧ y = a then 1 else 0) := rfl
    rw [hkey, sum_map_add, sum_head_left x a b xs hxs, sum_head_left x b a xs hxs]
    by_cases hxa : x = a
    · subst hxa
      by_cases hxb : x = b
      · subst hxb
        simp [hx]
      · have hba : ¬ b = x := fun h => hxb h.symm
        by_cases hb : b ∈ xs <;> simp [hxb, hba, hx, List.mem_cons]
    · have hax : ¬ a = x := fun h => hxa h.symm
      by_cases hxb : x = b
      · subst hxb
        by_cases ha : a ∈ xs <;> simp [hxa, hax, hx, List.mem_cons]
      · have hbx : ¬ b = x := fun h => hxb h.symm
        by_cases ha : a ∈ xs <;> by_cases hb : b ∈ xs <;>
          simp [hxa, hxb, hax, hbx, List.mem_cons]

theorem coCount_eq_spec (df : List Row)
    (h : ∀ u ∈ users df, (userPids df u).Nodup) (a b : Int) :
    coCount df a b = coCountSpec df a b := by
  unfold coCount coCountSpec
  have hcong : ∀ u ∈ users df,
      ((ordPairs (userPids df u)).map (fun p => keyInc p a b)).sum
        = if a ≠ b ∧ a ∈ userPids df u ∧ b ∈ userPids df u then 1 else 0 :=
    fun u hu => ordPairs_sum_keyInc a b (userPids df u) (h u hu)
  rw [List.map_congr_left hcong]
  by_cases hab : a = b
  · subst hab
    rw [if_pos rfl]
    have h0 : ∀ u ∈ users df,
        (if a ≠ a ∧ a ∈ userPids df u ∧ a ∈ userPids df u then (1 : Nat) else 0) = 0 := by
      intro u _; simp
    rw [List.map_congr_left h0]
    simp
  · rw [if_neg hab]
    have h1 : ∀ u ∈ users df,
        (if a ≠ b ∧ a ∈ userPids df u ∧ b ∈ userPids df u then (1 : Nat) else 0)
          = if a ∈ userPids df u ∧ b ∈ userPids df u then 1 else 0 := by
      intro u _; simp [hab]
    rw [List.map_congr_left h1]
    exact sum_map_ite _ _

theorem products_def (df : List Row) (sh : Shuffle) (uid : Int) :
    (getRecommendations df sh uid).products
      = (if userExists df uid then existingUserRecs df sh uid
         else fillWithPopular df [] []).take 5 := rfl

theorem products_length_le (df : List Row) (sh : Shuffle) (uid : Int) :
    (getRecommendations df sh uid).products.length ≤ 5 := by
  rw [products_def, List.length_take]
  omega

theorem fillWithPopular_empty (df : List Row) :
    fillWithPopular df [] [] = ((productPopularity df).map PopRow.pid).take 5 := by
  unfold fillWithPopular
  rw [List.map_nil, fillLoop_take (productPopularity df) [] []
    (productPopularity_keys_nodup df) (fun r _ => List.not_mem_nil _) (by norm_num)]
  rw [List.nil_append]

theorem products_unknown (df : List Row) (sh : Shuffle) (uid : Int)
    (h : userExists df uid = false) :
    (getRecommendations df sh uid).products
      = ((productPopularity df).map PopRow.pid).take 5 := by
  rw [products_def, h]
  simp only [Bool.false_eq_true, if_false]
  rw [fillWithPopular_empty, List.take_take]
  norm_num

theorem existingUserRecs_eq (df : List Row) (sh : Shuffle) (uid : Int)
    (h : userExists df uid = true) :
    existingUserRecs df sh uid
      = (if (pickLoop df (rankedCandidates df sh uid) [] []).length < 5
         then fillWithPopular df (pickLoop df (rankedCandidates df sh uid) [] [])
           (interested df uid)
         else pickLoop df (rankedCandidates df sh uid) [] []) := by
  unfold existingUserRecs
  rw [if_neg (userRows_ne_nil df uid h)]

theorem rankedCandidates_nil (df : List Row) (sh : Shuffle) (uid : Int)
    (h : interested df uid = []) : rankedCandidates df sh uid = [] := by
  unfold rankedCandidates candidatePids
  rw [h]
  rfl

theorem products_zero_user (df : List Row) (sh : Shuffle) (uid : Int)
    (h1 : userExists df uid = true) (hI : interested df uid = []) :
    (getRecommendations df sh uid).products
      = ((productPopularity df).map PopRow.pid).take 5 := by
  rw [products_def, h1]
  simp only [if_true]
  rw [existingUserRecs_eq df sh uid h1, rankedCandidates_nil df sh uid hI, hI]
  have hp : pickLoop df [] [] [] = [] := rfl
  rw [hp]
  rw [if_pos (by norm_num : ([] : List Int).length < 5)]
  rw [fillWithPopular_empty, List.take_take]
  norm_num

theorem mem_ranked_not_interested (df : List Row) (sh : Shuffle) (uid p : Int) (n : Nat)
    (h : (p, n) ∈ rankedCandidates df sh uid) : p ∉ interested df uid := by
  unfold rankedCandidates at h
  rw [(List.perm_insertionSort pairGE _).mem_iff, List.mem_map] at h
  obtain ⟨c, hc, heq⟩ := h
  have hcp : c = p := congrArg Prod.fst heq
  subst hcp
  unfold candidatePids at hc
  exact of_decide_eq_true (List.mem_filter.mp hc).2

theorem pickLoop_start_not_interested (df : List Row) (sh : Shuffle) (uid p : Int)
    (hp : p ∈ pickLoop df (rankedCandidates df sh uid) [] []) :
    p ∉ interested df uid := by
  rcases pickLoop_mem df _ [] [] p hp with h | ⟨n, hn⟩
  · exact absurd h (List.not_mem_nil p)
  · exact mem_ranked_not_interested df sh uid p n hn

/-- Two-row dataset where product 10 appears under brands "A" and "B". -/
def dfC1 : List Row := [⟨1, 10, "A", 1, 0, 0⟩, ⟨2, 10, "B", 1, 0, 0⟩]

/-- One user engaged with product 10 under two brands plus product 20. -/
def dfC6bad : List Row :=
  [⟨1, 10, "A", 0, 0, 1⟩, ⟨1, 10, "B", 0, 0, 1⟩, ⟨1, 20, "C", 0, 0, 1⟩]

/-- The spec's concrete scenario: user 1 purchases 10 and 20, user 2
purchases 20 and 30. -/
def dfC6good : List Row :=
  [⟨1, 10, "A", 0, 0, 1⟩, ⟨1, 20, "A", 0, 0, 1⟩,
   ⟨2, 20, "A", 0, 0, 1⟩, ⟨2, 30, "A", 0, 0, 1⟩]

/-- Product 10 first appears with brand "A" (user 2's purchase) and later
with brand "B" (user 3's click); user 1 interacts only with product 20. -/
def dfC10 : List Row :=
  [⟨2, 10, "A", 0, 0, 1⟩, ⟨1, 20, "X", 0, 0, 1⟩,
   ⟨2, 20, "X", 0, 0, 1⟩, ⟨3, 10, "B", 1, 0, 0⟩]

/-- One-row dataset with nonzero counts in every column. -/
def df5 : List Row := [⟨1, 1, "A", 2, 3, 4⟩]

/-- A single-brand-per-product catalog of three products and two users. -/
def dfW : List Row :=
  [⟨1, 10, "A", 0, 0, 2⟩, ⟨1, 20, "B", 1, 0, 0⟩,
   ⟨2, 10, "A", 0, 1, 0⟩, ⟨2, 30, "C", 0, 0, 1⟩]

/-- User 1 appears only with an all-zero row; user 2 has interactions. -/
def dfC9 : List Row := [⟨1, 10, "A", 0, 0, 0⟩, ⟨2, 20, "B", 1, 0, 1⟩]

section

attribute [local semireducible] Rat.add Rat.mul Rat.inv Rat.sub

/-- C1, counterexample: on a dataset where product 10 carries two brands, the
recommendation list of an unknown user is [10, 10] — the (pid, brand)
de-duplication does not prevent a duplicated product_id. -/
theorem claim_C1_counterexample :
    (getRecommendations dfC1 idShuffle 99).products = [10, 10]
    ∧ ¬ (getRecommendations dfC1 idShuffle 99).products.Nodup := by decide

/-- C1, amended: every recommendation list has length at most 5, and it has
no duplicate product_id provided every product_id carries a single brand in
the source data (the selection de-duplicates on the (product_id, brand)
pair, so a product appearing under two brands can be listed twice). -/
theorem claim_C1 (df : List Row) (sh : Shuffle) (uid : Int) :
    (getRecommendations df sh uid).products.length ≤ 5
    ∧ ((∀ r ∈ df, ∀ s ∈ df, r.pid = s.pid → r.brand = s.brand) →
        (getRecommendations df sh uid).products.Nodup) := by
  refine ⟨products_length_le df sh uid, fun hb => ?_⟩
  have hrows : ∀ r ∈ productPopularity df, (r : PopRow).brand = brandOf df r.pid :=
    fun r hr => popRow_brand_eq_brandOf df hb r hr
  rw [products_def]
  refine List.Nodup.sublist (List.take_sublist 5 _) ?_
  by_cases hex : userExists df uid = true
  · rw [hex, if_pos rfl, existingUserRecs_eq df sh uid hex]
    by_cases hlen : (pickLoop df (rankedCandidates df sh uid) [] []).length < 5
    · rw [if_pos hlen]
      unfold fillWithPopular
      refine fillLoop_nodup df _ 5 _ _ _ hrows
        (pickLoop_nodup df _ [] [] List.nodup_nil (fun q hq => absurd hq (List.not_mem_nil q)))
        ?_
      intro q hq
      exact List.mem_map_of_mem _ hq
    · rw [if_neg hlen]
      exact pickLoop_nodup df _ [] [] List.nodup_nil (fun q hq => absurd hq (List.not_mem_nil q))
  · rw [Bool.not_eq_true] at hex
    rw [hex]
    simp only [Bool.false_eq_true, if_false]
    unfold fillWithPopular
    rw [List.map_nil]
    exact fillLoop_nodup df _ 5 _ _ _ hrows List.nodup_nil
      (fun q hq => absurd hq (List.not_mem_nil q))

/-- C1, witness: instantiation at a single-brand catalog and a concrete user. -/
theorem claim_C1_witness :
    (getRecommendations dfW idShuffle 42).products.length ≤ 5
    ∧ (getRecommendations dfW idShuffle 42).products.Nodup :=
  ⟨(claim_C1 dfW idShuffle 42).1, (claim_C1 dfW idShuffle 42).2 (by decide)⟩

/-- C2: a user id absent from every row receives exactly the first up-to-5
product ids of the popularity ranking, in ranking order; the co-occurrence
step plays no part (the shuffle oracle is not even consulted). -/
theorem claim_C2 (df : List Row) (sh : Shuffle) (uid : Int)
    (h : userExists df uid = false) :
    (getRecommendations df sh uid).products
      = ((productPopularity df).map PopRow.pid).take 5 :=
  products_unknown df sh uid h

/-- C2, witness: user 42 is unknown to the dfW catalog. -/
theorem claim_C2_witness :
    (getRecommendations dfW idShuffle 42).products
      = ((productPopularity dfW).map PopRow.pid).take 5 :=
  claim_C2 dfW idShuffle 42 (by decide)

/-- C3: a product the user has interacted with (click, add-to-cart or
purchase) never appears among that user's recommendations — the
co-occurrence phase and the popularity fill both skip it. -/
theorem claim_C3 (df : List Row) (sh : Shuffle) (uid p : Int)
    (hp : p ∈ interested df uid) :
    p ∉ (getRecommendations df sh uid).products := by
  intro hmem
  rw [products_def] at hmem
  have hmem' := (List.take_sublist 5 _).subset hmem
  by_cases hex : userExists df uid = true
  · rw [hex, if_pos rfl, existingUserRecs_eq df sh uid hex] at hmem'
    by_cases hlen : (pickLoop df (rankedCandidates df sh uid) [] []).length < 5
    · rw [if_pos hlen] at hmem'
      unfold fillWithPopular at hmem'
      rcases fillLoop_mem _ 5 _ _ _ p hmem' with h | ⟨row, _, rfl, hrow⟩
      · exact pickLoop_start_not_interested df sh uid p h hp
      · exact hrow hp
    · rw [if_neg hlen] at hmem'
      exact pickLoop_start_not_interested df sh uid p hmem' hp
  · rw [Bool.not_eq_true] at hex
    rw [interested_eq_nil_of_not_exists df uid hex] at hp
    exact absurd hp (List.not_mem_nil p)

/-- C3, witness: product 10 is in user 1's interested set in dfW and is
absent from user 1's recommendations. -/
theorem claim_C3_witness :
    (10 : Int) ∈ interested dfW 1
    ∧ (10 : Int) ∉ (getRecommendations dfW idShuffle 1).products :=
  ⟨by decide, claim_C3 dfW idShuffle 1 10 (by decide)⟩

/-- C4: for a candidate c outside the user's interested set, the accumulated
vote count equals the number of interested seed products whose co-occurrence
list contains c (each seed's list holds no duplicates, so each seed votes at
most once, not with the raw pairwise association count), and the ranked
candidate list is non-increasing in vote count. -/
theorem claim_C4 (df : List Row) (sh : Shuffle) (uid : Int) (hsh : ValidShuffle sh) :
    (∀ c : Int, c ∉ interested df uid →
      voteCount df sh uid c
        = ((interested df uid).filter (fun s => decide (c ∈ cooccurList df sh s))).length)
    ∧ List.Pairwise pairGE (rankedCandidates df sh uid) := by
  refine ⟨fun c hc => voteCount_eq df sh uid c hsh hc, ?_⟩
  unfold rankedCandidates
  exact List.sorted_insertionSort pairGE _

/-- C4, witness: in dfC10, candidate 10 gets exactly one vote (from seed 20),
and user 1's ranked candidate list is sorted by non-increasing votes. -/
theorem claim_C4_witness :
    (voteCount dfC10 idShuffle 1 10
      = ((interested dfC10 1).filter
          (fun s => decide ((10 : Int) ∈ cooccurList dfC10 idShuffle s))).length)
    ∧ List.Pairwise pairGE (rankedCandidates dfC10 idShuffle 1) :=
  ⟨(claim_C4 dfC10 idShuffle 1 idShuffle_valid).1 10 (by decide),
   (claim_C4 dfC10 idShuffle 1 idShuffle_valid).2⟩

/-- C5: every popularity row's score is clicks times the click weight plus
add-to-cart times the cart weight plus purchases; the weights divide the
dataset-wide purchase total by the click (respectively add-to-cart) total
floored at 1, whose cast is strictly positive, so no division by zero. -/
theorem claim_C5 (df : List Row) (row : PopRow) (h : row ∈ productPopularity df) :
    row.score = (row.click : ℚ) * coefClick df + (row.addToCart : ℚ) * coefCart df
        + (row.purchase : ℚ)
    ∧ coefClick df = (totPurchase df : ℚ) / ((max (totClick df) 1 : Nat) : ℚ)
    ∧ coefCart df = (totPurchase df : ℚ) / ((max (totCart df) 1 : Nat) : ℚ)
    ∧ (0 : ℚ) < ((max (totClick df) 1 : Nat) : ℚ)
    ∧ (0 : ℚ) < ((max (totCart df) 1 : Nat) : ℚ) := by
  obtain ⟨b, _, rfl⟩ := (mem_productPopularity_iff df row).mp h
  refine ⟨rfl, rfl, rfl, ?_, ?_⟩
  · exact_mod_cast Nat.lt_of_lt_of_le Nat.zero_lt_one (le_max_right _ 1)
  · exact_mod_cast Nat.lt_of_lt_of_le Nat.zero_lt_one (le_max_right _ 1)

/-- C5, witness: the single df5 row has totals purchase 4, click 2, cart 3,
weights 2 and 4/3, and score 2*2 + 3*(4/3) + 4 = 12. -/
theorem claim_C5_witness :
    (⟨1, "A", 2, 3, 4, 12⟩ : PopRow) ∈ productPopularity df5
    ∧ ((⟨1, "A", 2, 3, 4, 12⟩ : PopRow)).score
        = (((⟨1, "A", 2, 3, 4, 12⟩ : PopRow)).click : ℚ) * coefClick df5
          + (((⟨1, "A", 2, 3, 4, 12⟩ : PopRow)).addToCart : ℚ) * coefCart df5
          + (((⟨1, "A", 2, 3, 4, 12⟩ : PopRow)).purchase : ℚ) :=
  ⟨by decide, (claim_C5 df5 _ (by decide)).1⟩

/-- C6, counterexample: with product 10 engaged under two brands by user 1,
the code's counter gives co-occurrence count 2 from 10 to itself and count 2
between 10 and 20, while once-per-unordered-pair-of-distinct-products
counting gives 0 and 1. -/
theorem claim_C6_counterexample :
    coCount dfC6bad 10 10 = 2 ∧ coCountSpec dfC6bad 10 10 = 0
    ∧ coCount dfC6bad 10 20 = 2 ∧ coCountSpec dfC6bad 10 20 = 1 := by decide

/-- C6, amended: the counter is incremented once per ordered position pair of
the user's engaged row list (one row per (uid, pid, brand) key), which
coincides with once per unordered pair of distinct products exactly when no
user's engaged list repeats a product (one brand per product per user); the
spec's concrete scenario satisfies this and behaves as stated. -/
theorem claim_C6 :
    (∀ df : List Row, (∀ u ∈ users df, (userPids df u).Nodup) →
      ∀ a b : Int, coCount df a b = coCountSpec df a b)
    ∧ coCount dfC6good 10 20 = 1 ∧ coCount dfC6good 20 30 = 1
    ∧ coCount dfC6good 10 30 = 0
    ∧ cooccurList dfC6good idShuffle 10 = [20]
    ∧ cooccurList dfC6good idShuffle 30 = [20]
    ∧ cooccurList dfC6good idShuffle 20 = [10, 30] :=
  ⟨fun df h a b => coCount_eq_spec df h a b, by decide, by decide, by decide,
   by decide, by decide, by decide⟩

/-- C6, witness: the concrete scenario's engaged lists are duplicate-free,
and there the code's counter agrees with the per-unordered-pair count. -/
theorem claim_C6_witness :
    (∀ u ∈ users dfC6good, (userPids dfC6good u).Nodup)
    ∧ coCount dfC6good 10 20 = coCountSpec dfC6good 10 20 :=
  ⟨by decide, claim_C6.1 dfC6good (by decide) 10 20⟩

/-- C7: a product's association list is ordered by non-increasing association
count (tiers from highest to lowest with a shuffle inside each tier), and two
builds with different tie-break shuffles produce lists that are permutations
of each other, tier by tier: for every count value the tier's members agree
as multisets. -/
theorem claim_C7 (df : List Row) (sh1 sh2 : Shuffle)
    (h1 : ValidShuffle sh1) (h2 : ValidShuffle sh2) (p : Int) :
    List.Pairwise (fun a b => coCount df p b ≤ coCount df p a) (cooccurList df sh1 p)
    ∧ (cooccurList df sh1 p).Perm (cooccurList df sh2 p)
    ∧ ∀ f : Nat,
        ((cooccurList df sh1 p).filter (fun q => decide (coCount df p q = f))).Perm
          ((cooccurList df sh2 p).filter (fun q => decide (coCount df p q = f))) :=
  ⟨cooccurList_pairwise df sh1 h1 p, cooccurList_perm df sh1 sh2 h1 h2 p,
   fun _ => (cooccurList_perm df sh1 sh2 h1 h2 p).filter _⟩

/-- C7, witness: instantiation at the concrete scenario's product 20 with the
identity shuffle for both builds and the count-1 tier. -/
theorem claim_C7_witness :
    List.Pairwise (fun a b => coCount dfC6good 20 b ≤ coCount dfC6good 20 a)
      (cooccurList dfC6good idShuffle 20)
    ∧ (cooccurList dfC6good idShuffle 20).Perm (cooccurList dfC6good idShuffle 20)
    ∧ ((cooccurList dfC6good idShuffle 20).filter
        (fun q => decide (coCount dfC6good 20 q = 1))).Perm
      ((cooccurList dfC6good idShuffle 20).filter
        (fun q => decide (coCount dfC6good 20 q = 1))) :=
  ⟨(claim_C7 dfC6good idShuffle idShuffle idShuffle_valid idShuffle_valid 20).1,
   (claim_C7 dfC6good idShuffle idShuffle idShuffle_valid idShuffle_valid 20).2.1,
   (claim_C7 dfC6good idShuffle idShuffle idShuffle_valid idShuffle_valid 20).2.2 1⟩

/-- C9: a user who is present but whose rows are all zero has an empty
interested set, gets no co-occurrence candidates, and receives exactly the
popularity top-5 — the same list an unknown user receives; the existing-user
path is taken (its empty early exit is unreachable, presence being already
established) and ends in the popularity fill. -/
theorem claim_C9 (df : List Row) (sh : Shuffle) (uid : Int)
    (h1 : userExists df uid = true)
    (h2 : ∀ s ∈ userProductStats df, s.uid = uid →
      s.click = 0 ∧ s.addToCart = 0 ∧ s.purchase = 0) :
    (getRecommendations df sh uid).products
      = ((productPopularity df).map PopRow.pid).take 5 :=
  products_zero_user df sh uid h1 (interested_eq_nil_of_zero df uid h2)

/-- C9, witness: user 1 of dfC9 exists with a single all-zero row and gets
the popularity top-5. -/
theorem claim_C9_witness :
    userExists dfC9 1 = true
    ∧ (getRecommendations dfC9 idShuffle 1).products
        = ((productPopularity dfC9).map PopRow.pid).take 5 :=
  ⟨by decide, claim_C9 dfC9 idShuffle 1 (by decide) (by decide)⟩

/-- C8: after a load, `get_recommendations` is a total function — it returns
a list of at most 5 products for every integer user id; when the result is
shorter than 5 the popularity ranking was exhausted, so every catalog
product outside the user's interested set is already in the result (a
catalog with fewer than 5 eligible products is returned whole, unpadded),
and an unknown user's products all come from the catalog. -/
theorem claim_C8 (df : List Row) (sh : Shuffle) (uid : Int) :
    (getRecommendations df sh uid).products.length ≤ 5
    ∧ ((getRecommendations df sh uid).products.length < 5 →
        ∀ row ∈ productPopularity df, row.pid ∉ interested df uid →
          row.pid ∈ (getRecommendations df sh uid).products)
    ∧ (userExists df uid = false →
        ∀ p ∈ (getRecommendations df sh uid).products,
          p ∈ (productPopularity df).map PopRow.pid) := by
  refine ⟨products_length_le df sh uid, ?_, ?_⟩
  · intro hlen row hrow hrowI
    by_cases hex : userExists df uid = true
    · have hpd : (getRecommendations df sh uid).products
          = (existingUserRecs df sh uid).take 5 := by
        rw [products_def, hex, if_pos rfl]
      rw [hpd] at hlen ⊢
      have hlt : (existingUserRecs df sh uid).length < 5 := by
        rw [List.length_take] at hlen
        omega
      rw [List.take_of_length_le (le_of_lt hlt)]
      rw [existingUserRecs_eq df sh uid hex] at hlt ⊢
      by_cases hplen : (pickLoop df (rankedCandidates df sh uid) [] []).length < 5
      · rw [if_pos hplen] at hlt ⊢
        unfold fillWithPopular at hlt ⊢
        refine fillLoop_coverage _ 5 _ _ _ ?_ hlt row hrow hrowI
        intro k hk
        rw [List.mem_map] at hk
        obtain ⟨q, hq, rfl⟩ := hk
        exact hq
      · rw [if_neg hplen] at hlt
        omega
    · rw [Bool.not_eq_true] at hex
      have hpd : (getRecommendations df sh uid).products
          = (fillWithPopular df [] []).take 5 := by
        rw [products_def, hex]
        simp
      rw [hpd] at hlen ⊢
      have hlt : (fillWithPopular df [] []).length < 5 := by
        rw [List.length_take] at hlen
        omega
      rw [List.take_of_length_le (le_of_lt hlt)]
      unfold fillWithPopular at hlt ⊢
      rw [List.map_nil] at hlt ⊢
      exact fillLoop_coverage _ 5 _ _ _ (fun k hk => absurd hk (List.not_mem_nil k))
        hlt row hrow (List.not_mem_nil _)
  · intro hex p hp
    rw [products_unknown df sh uid hex] at hp
    exact (List.take_sublist 5 _).subset hp

/-- C8, witness: dfW has only three products, so unknown user 42 gets all of
them — a list of length 3 containing product 10 — and nothing outside the
catalog. -/
theorem claim_C8_witness :
    (getRecommendations dfW idShuffle 42).products.length ≤ 5
    ∧ (10 : Int) ∈ (getRecommendations dfW idShuffle 42).products
    ∧ ∀ p ∈ (getRecommendations dfW idShuffle 42).products,
        p ∈ (productPopularity dfW).map PopRow.pid := by
  refine ⟨(claim_C8 dfW idShuffle 42).1, ?_, (claim_C8 dfW idShuffle 42).2.2 (by decide)⟩
  exact (claim_C8 dfW idShuffle 42).2.1 (by decide) ⟨10, "A", 0, 1, 2, 5⟩ (by decide) (by decide)

/-- C10: the brand dictionary maps every product id to the brand of its first
occurrence in the raw data (first-seen-wins, and a missing id yields none);
in dfC10 the dictionary gives product 10 brand "A", the co-occurrence pick
of user 1 is de-duplicated under (10, "A") while the popularity fill keys
each row by its own brand, so the fill appends the (10, "B") row again and
skips the (10, "A") row, yielding [10, 10]. -/
theorem claim_C10 :
    (∀ (df : List Row) (p : Int),
      List.lookup p (productBrands df)
        = (df.find? (fun r => decide (r.pid = p))).map Row.brand)
    ∧ brandOf dfC10 10 = "A"
    ∧ (productPopularity dfC10).map (fun r => (r.pid, r.brand))
        = [(10, "B"), (20, "X"), (10, "A")]
    ∧ pickLoop dfC10 (rankedCandidates dfC10 idShuffle 1) [] [] = [10]
    ∧ (getRecommendations dfC10 idShuffle 1).products = [10, 10] :=
  ⟨fun df p => lookup_brandsAux df [] p (List.not_mem_nil p), by decide, by decide,
   by decide, by decide⟩

end
